import Mathlib

/-!
Beast catalogue resolvers (schema.go)

A shallow embedding of the four GraphQL resolvers of schema.go (beast,
beastList, addBeast, updateBeast) acting on the two package-level variables
BeastList and currentMaxId, followed by theorems about them.

Modelling conventions.
* Go int is the 64-bit two-complement integer; it is embedded as Int and
  every Go addition is followed by wrapInt.
* Go strings are String, a []string is a List String (the nil slice and the
  empty slice are both the empty list).
* A value of type interface taken out of params.Args is a Value; the
  argument map is an association list read with List.lookup.
* A resolver returns (interface, error); the error is an Option String
  with none standing for nil.  A failed unchecked type assertion is a run-time
  panic, modelled as Outcome.panicked together with the store as the
  assignments made before the panic left it.
-/

namespace Schema

/-- Beast is the record type of schema.go (struct Beast). -/
structure Beast where
  ID : Int
  Name : String
  Description : String
  OtherNames : List String
  ImageURL : String
  deriving DecidableEq, Repr

/-- The zero value of Beast. -/
def Beast.zero : Beast :=
  { ID := 0, Name := "", Description := "", OtherNames := [], ImageURL := "" }

/-- Dynamic values that can sit in params.Args (Go interface values). -/
inductive Value where
  | null : Value
  | int (n : Int) : Value
  | str (s : String) : Value
  | strs (l : List String) : Value
  | bool (b : Bool) : Value
  | list (l : List Value) : Value

/-- The argument map params.Args. -/
abbrev Args := List (String × Value)

/-- Go error values; none is nil. -/
abbrev GoError := Option String

/-- Largest Go int (64-bit). -/
def maxInt : Int := 9223372036854775807

/-- Smallest Go int (64-bit). -/
def minInt : Int := -9223372036854775808

/-- Two-complement wrap-around of a mathematical integer into Go int. -/
def wrapInt (n : Int) : Int :=
  (n + 9223372036854775808) % 18446744073709551616 - 9223372036854775808

/-- Go addition on int. -/
def goAdd (a b : Int) : Int := wrapInt (a + b)

/-- The checked assertion v.(string) of the comma-ok form: value and ok. -/
def asString : Option Value → String × Bool
  | some (Value.str s) => (s, true)
  | _ => ("", false)

/-- The checked assertion v.([]string) of the comma-ok form. -/
def asStrings : Option Value → List String × Bool
  | some (Value.strs l) => (l, true)
  | _ => ([], false)

/-- The checked assertion v.(int) of the comma-ok form. -/
def asInt : Option Value → Int × Bool
  | some (Value.int n) => (n, true)
  | _ => (0, false)

/-- Package-level state: BeastList and currentMaxId. -/
structure State where
  BeastList : List Beast
  currentMaxId : Int
  deriving DecidableEq, Repr

/-- The state at start-up: BeastList holds whatever importJSONDataFromFile
loaded, and currentMaxId is the constant 5 (schema.go line 70). -/
def initState (seed : List Beast) : State :=
  { BeastList := seed, currentMaxId := 5 }

/-- What a resolver call produced: a returned pair, or a run-time panic. -/
inductive Outcome (α : Type) where
  | returned (val : α) (err : GoError) : Outcome α
  | panicked : Outcome α
  deriving DecidableEq, Repr

/-- The record built by addBeast.Resolve (lines 99 to 116). -/
def newBeast (s : State) (args : Args) : Beast :=
  let name := (asString (args.lookup "name")).1
  let description := (asString (args.lookup "description")).1
  let otherNames := (asStrings (args.lookup "otherNames")).1
  let imageUrl := (asString (args.lookup "imageUrl")).1
  let newID := goAdd s.currentMaxId 1
  { ID := newID, Name := name, Description := description,
    OtherNames := otherNames, ImageURL := imageUrl }

/-- Resolver rootMutation.addBeast.Resolve: new state and (value, error). -/
def addBeast (s : State) (args : Args) : State × Beast × GoError :=
  let b := newBeast s args
  ({ BeastList := s.BeastList ++ [b], currentMaxId := goAdd s.currentMaxId 1 }, b, none)

/-- Lines 154 to 156: assign Description when the key is present; the
unchecked assertion panics on a non-string, leaving the record as it is. -/
def assignDescription (args : Args) (b : Beast) : Except Beast Beast :=
  match args.lookup "description" with
  | none => Except.ok b
  | some (Value.str v) => Except.ok { b with Description := v }
  | some _ => Except.error b

/-- Lines 157 to 159: assign Name when the key is present. -/
def assignName (args : Args) (b : Beast) : Except Beast Beast :=
  match args.lookup "name" with
  | none => Except.ok b
  | some (Value.str v) => Except.ok { b with Name := v }
  | some _ => Except.error b

/-- Lines 160 to 162: assign ImageURL when the key is present. -/
def assignImageUrl (args : Args) (b : Beast) : Except Beast Beast :=
  match args.lookup "imageUrl" with
  | none => Except.ok b
  | some (Value.str v) => Except.ok { b with ImageURL := v }
  | some _ => Except.error b

/-- Lines 163 to 165: assign OtherNames when the key is present. -/
def assignOtherNames (args : Args) (b : Beast) : Except Beast Beast :=
  match args.lookup "otherNames" with
  | none => Except.ok b
  | some (Value.strs v) => Except.ok { b with OtherNames := v }
  | some _ => Except.error b

/-- The body of the if at lines 154 to 165, in source order.  Except.ok is
the record after all four steps; Except.error is the record as the store
holds it when an assertion panicked. -/
def updateFields (args : Args) (b : Beast) : Except Beast Beast :=
  assignDescription args b >>= assignName args >>= assignImageUrl args
    >>= assignOtherNames args

/-- The for loop of updateBeast.Resolve (lines 152 to 171) over the store
from position 0: the store after the loop, and what the loop did: none when
no element matched, some (Except.ok b) when the first match was updated to b
(affectedBeast), some (Except.error ()) when an assertion panicked. -/
def updateLoop (args : Args) (id : Int) : List Beast → List Beast × Option (Except Unit Beast)
  | [] => ([], none)
  | b :: rest =>
    if b.ID = id then
      match updateFields args b with
      | Except.ok b2 => (b2 :: rest, some (Except.ok b2))
      | Except.error b2 => (b2 :: rest, some (Except.error ()))
    else
      let r := updateLoop args id rest
      (b :: r.1, r.2)

/-- The id read at line 148 (0 when absent or not an int). -/
def argId (args : Args) : Int := (asInt (args.lookup "id")).1

/-- Resolver rootMutation.updateBeast.Resolve. -/
def updateBeast (s : State) (args : Args) : State × Outcome Beast :=
  let id := argId args
  let r := updateLoop args id s.BeastList
  let s2 : State := { BeastList := r.1, currentMaxId := s.currentMaxId }
  match r.2 with
  | none => (s2, Outcome.returned Beast.zero none)
  | some (Except.ok affectedBeast) => (s2, Outcome.returned affectedBeast none)
  | some (Except.error _) => (s2, Outcome.panicked)

/-- The range loop of beast.Resolve (lines 201 to 205). -/
def findByName (nameQuery : String) : List Beast → Option Beast
  | [] => none
  | beast :: rest => if beast.Name = nameQuery then some beast else findByName nameQuery rest

/-- Resolver rootQuery.beast.Resolve (read-only). -/
def beast (s : State) (args : Args) : Beast × GoError :=
  let r := asString (args.lookup "name")
  if r.2 then
    match findByName r.1 s.BeastList with
    | some b => (b, none)
    | none => (Beast.zero, none)
  else (Beast.zero, none)

/-- Resolver rootQuery.beastList.Resolve (read-only). -/
def beastList (s : State) : List Beast × GoError := (s.BeastList, none)

/-- Whether a looked-up argument is absent or a Go string. -/
def absentOrString : Option Value → Bool
  | none => true
  | some (Value.str _) => true
  | some _ => false

/-- Whether a looked-up argument is absent or a Go []string. -/
def absentOrStrings : Option Value → Bool
  | none => true
  | some (Value.strs _) => true
  | some _ => false

/-- An argument map is well typed for updateBeast.Resolve when each of the
four keys it asserts without a check is absent or holds the asserted type. -/
def wellTyped (args : Args) : Bool :=
  absentOrString (args.lookup "description") && absentOrString (args.lookup "name")
    && absentOrString (args.lookup "imageUrl") && absentOrStrings (args.lookup "otherNames")

/-- The record a sparse update of b by args describes: each field is the
supplied value when its key holds one, and the field of b otherwise. -/
def sparseUpdate (args : Args) (b : Beast) : Beast :=
  { ID := b.ID,
    Name := (match args.lookup "name" with
             | some (Value.str v) => v
             | _ => b.Name),
    Description := (match args.lookup "description" with
                    | some (Value.str v) => v
                    | _ => b.Description),
    OtherNames := (match args.lookup "otherNames" with
                   | some (Value.strs v) => v
                   | _ => b.OtherNames),
    ImageURL := (match args.lookup "imageUrl" with
                 | some (Value.str v) => v
                 | _ => b.ImageURL) }

/-- One resolver call. -/
inductive Op where
  | beast (args : Args) : Op
  | beastList : Op
  | addBeast (args : Args) : Op
  | updateBeast (args : Args) : Op

/-- What one resolver call handed back. -/
inductive Response where
  | beast (b : Beast) (err : GoError) : Response
  | beastList (l : List Beast) (err : GoError) : Response
  | addBeast (b : Beast) (err : GoError) : Response
  | updateBeast (o : Outcome Beast) : Response
  deriving DecidableEq, Repr

/-- Execute one call: the next state and the response. -/
def step (s : State) : Op → State × Response
  | Op.beast args => (s, Response.beast (beast s args).1 (beast s args).2)
  | Op.beastList => (s, Response.beastList (beastList s).1 (beastList s).2)
  | Op.addBeast args =>
    ((addBeast s args).1, Response.addBeast (addBeast s args).2.1 (addBeast s args).2.2)
  | Op.updateBeast args => ((updateBeast s args).1, Response.updateBeast (updateBeast s args).2)

/-- The state after a sequence of calls. -/
def run (s : State) : List Op → State
  | [] => s
  | op :: ops => run (step s op).1 ops

/-- The responses of a sequence of calls, in order. -/
def responses (s : State) : List Op → List Response
  | [] => []
  | op :: ops => (step s op).2 :: responses (step s op).1 ops

/-- The ID of the record an addBeast call returned. -/
def addedId : Response → Option Int
  | Response.addBeast b _ => some b.ID
  | _ => none

/-- The IDs returned by the addBeast calls of a sequence, in call order. -/
def addedIds (s : State) (ops : List Op) : List Int :=
  (responses s ops).filterMap addedId

/-- Whether a call is an addBeast call. -/
def Op.isAdd : Op → Bool
  | Op.addBeast _ => true
  | _ => false

/-- Number of addBeast calls in a sequence. -/
def countAdds (ops : List Op) : Nat := (ops.filter Op.isAdd).length

/-- The k consecutive integers that follow c: c + 1, c + 2, up to c + k. -/
def idsFrom (c : Int) : Nat → List Int
  | 0 => []
  | k + 1 => (c + 1) :: idsFrom (c + 1) k

/-! ## Concrete data used in the worked instances -/

/-- A seed of five records with ids 1 to 5. -/
def seedFive : List Beast :=
  [ { ID := 1, Name := "Abada", Description := "d1", OtherNames := ["Nillekma"], ImageURL := "u1" },
    { ID := 2, Name := "Banshee", Description := "d2", OtherNames := [], ImageURL := "u2" },
    { ID := 3, Name := "Cyclops", Description := "d3", OtherNames := [], ImageURL := "u3" },
    { ID := 4, Name := "Dragon", Description := "d4", OtherNames := ["Wyrm"], ImageURL := "u4" },
    { ID := 5, Name := "Ent", Description := "d5", OtherNames := [], ImageURL := "u5" } ]

/-- The arguments of addBeast(name: "Chimera", description: "Lion-goat-serpent"). -/
def chimeraArgs : Args :=
  [("name", Value.str "Chimera"), ("description", Value.str "Lion-goat-serpent")]

/-- The record the scenario expects addBeast to return. -/
def chimera : Beast :=
  { ID := 6, Name := "Chimera", Description := "Lion-goat-serpent", OtherNames := [],
    ImageURL := "" }

/-- The store after the addBeast call of the scenario. -/
def afterChimera : State :=
  { BeastList := seedFive ++ [chimera], currentMaxId := 6 }

/-- The arguments of updateBeast(id: 6, imageUrl: "http://x/img.png"). -/
def imageArgs : Args :=
  [("id", Value.int 6), ("imageUrl", Value.str "http://x/img.png")]

/-- The record the scenario expects updateBeast to return. -/
def chimeraWithImage : Beast :=
  { ID := 6, Name := "Chimera", Description := "Lion-goat-serpent", OtherNames := [],
    ImageURL := "http://x/img.png" }

/-- Arguments naming an id that no seed record has, with ill-typed fields. -/
def strayArgs : Args :=
  [("id", Value.int 999999), ("name", Value.null),
   ("otherNames", Value.list [Value.str "a"])]

/-- A seed whose only record carries an id above the initial counter. -/
def seedSeven : List Beast :=
  [ { ID := 7, Name := "Griffin", Description := "d7", OtherNames := [], ImageURL := "" } ]

/-- A seed whose only record carries the id the first addBeast will assign. -/
def seedSix : List Beast :=
  [ { ID := 6, Name := "Faun", Description := "d6", OtherNames := [], ImageURL := "" } ]

/-- A short session mixing all four calls. -/
def sessionOps : List Op :=
  [ Op.addBeast chimeraArgs, Op.beast [("name", Value.str "Chimera")],
    Op.updateBeast imageArgs, Op.beastList, Op.addBeast [("name", Value.str "Hydra")],
    Op.updateBeast strayArgs, Op.addBeast chimeraArgs ]

/-- A store with two records named "Chimera" after one named "chimera". -/
def twinState : State :=
  { BeastList :=
      [ { ID := 1, Name := "chimera", Description := "lower case", OtherNames := [],
          ImageURL := "" },
        { ID := 2, Name := "Chimera", Description := "first", OtherNames := [], ImageURL := "" },
        { ID := 3, Name := "Chimera", Description := "second", OtherNames := [],
          ImageURL := "" } ],
    currentMaxId := 5 }

/-- A store that already holds a record named "Chimera". -/
def staleState : State :=
  { BeastList :=
      [ { ID := 1, Name := "Chimera", Description := "An older entry", OtherNames := [],
          ImageURL := "" } ],
    currentMaxId := 5 }

/-- The arguments of beast(name: "Chimera"). -/
def chimeraQuery : Args := [("name", Value.str "Chimera")]

/-- The arguments of beast(name: "does-not-exist"). -/
def unknownQuery : Args := [("name", Value.str "does-not-exist")]

/-- Arguments of beast whose name is not a string. -/
def numericNameQuery : Args := [("name", Value.int 3)]

/-- The arguments of updateBeast(id: 1, otherNames: ["Nillekma"]) with the
list held as a slice of interface values. -/
def listNamesArgs : Args :=
  [("id", Value.int 1), ("otherNames", Value.list [Value.str "Nillekma"])]

/-- The arguments of updateBeast(id: 1, description: "rewritten", name: null). -/
def nullNameArgs : Args :=
  [("id", Value.int 1), ("description", Value.str "rewritten"), ("name", Value.null)]

/-- The arguments of addBeast with a null name and a list of interface values. -/
def looseAddArgs : Args :=
  [("name", Value.null), ("otherNames", Value.list [Value.str "Nillekma"])]

/-- A store whose only record is the zero record. -/
def zeroState : State := { BeastList := [Beast.zero], currentMaxId := 5 }

/-- A store without records. -/
def emptyState : State := { BeastList := [], currentMaxId := 5 }

/-- The arguments of beast(name: ""). -/
def emptyNameQuery : Args := [("name", Value.str "")]

/-- The arguments of updateBeast(id: 0). -/
def zeroIdArgs : Args := [("id", Value.int 0)]

/-- A store in which two records carry ID 2. -/
def sharedIdState : State :=
  { BeastList :=
      [ { ID := 1, Name := "Abada", Description := "d1", OtherNames := [], ImageURL := "" },
        { ID := 2, Name := "Banshee", Description := "d2", OtherNames := [], ImageURL := "" },
        { ID := 2, Name := "Bunyip", Description := "d2b", OtherNames := [], ImageURL := "" } ],
    currentMaxId := 5 }

/-- The arguments of updateBeast(id: 2, name: "Basilisk"). -/
def renameArgs : Args := [("id", Value.int 2), ("name", Value.str "Basilisk")]

/-! ## Arithmetic of Go int -/

theorem wrapInt_of_inRange (n : Int) (hlo : minInt ≤ n) (hhi : n ≤ maxInt) : wrapInt n = n := by
  unfold wrapInt
  unfold minInt at hlo
  unfold maxInt at hhi
  omega

theorem goAdd_one (m : Int) (hlo : minInt ≤ m) (hhi : m < maxInt) : goAdd m 1 = m + 1 := by
  unfold goAdd
  apply wrapInt_of_inRange
  · unfold minInt at *; omega
  · unfold maxInt at *; omega

/-! ## addBeast -/

/-- C1: addBeast returns, with a nil error, the record r whose ID is
currentMaxId + 1 (Go addition), whose Name, Description and ImageURL are the
supplied strings and whose OtherNames is the supplied string slice, an argument
that is absent or of another dynamic type giving the zero value; the new state
is the old store with r appended and the counter advanced by one.  No condition
on the store is needed, so the call also succeeds when the name is already
taken.  Go addition is the mathematical m + 1 whenever m is a Go int below the
largest one. -/
theorem addBeast_postcondition (s : State) (args : Args) :
    addBeast s args =
        ({ BeastList := s.BeastList ++
              [{ ID := goAdd s.currentMaxId 1,
                 Name := (match args.lookup "name" with
                          | some (Value.str v) => v
                          | _ => ""),
                 Description := (match args.lookup "description" with
                                 | some (Value.str v) => v
                                 | _ => ""),
                 OtherNames := (match args.lookup "otherNames" with
                                | some (Value.strs v) => v
                                | _ => []),
                 ImageURL := (match args.lookup "imageUrl" with
                              | some (Value.str v) => v
                              | _ => "") }],
           currentMaxId := goAdd s.currentMaxId 1 },
         { ID := goAdd s.currentMaxId 1,
           Name := (match args.lookup "name" with
                    | some (Value.str v) => v
                    | _ => ""),
           Description := (match args.lookup "description" with
                           | some (Value.str v) => v
                           | _ => ""),
           OtherNames := (match args.lookup "otherNames" with
                          | some (Value.strs v) => v
                          | _ => []),
           ImageURL := (match args.lookup "imageUrl" with
                        | some (Value.str v) => v
                        | _ => "") },
         none)
      ∧ (minInt ≤ s.currentMaxId → s.currentMaxId < maxInt →
          goAdd s.currentMaxId 1 = s.currentMaxId + 1) := by
  refine ⟨?_, goAdd_one s.currentMaxId⟩
  have hs : ∀ o : Option Value,
      (asString o).1 = (match o with
                        | some (Value.str v) => v
                        | _ => "") := by
    intro o
    unfold asString
    split <;> rfl
  have hl : ∀ o : Option Value,
      (asStrings o).1 = (match o with
                         | some (Value.strs v) => v
                         | _ => []) := by
    intro o
    unfold asStrings
    split <;> rfl
  simp only [addBeast, newBeast, hs, hl]

/-- C1 at the scenario of the specification: five seed records, then
addBeast(name: "Chimera", description: "Lion-goat-serpent"). -/
theorem addBeast_postcondition_witness :
    addBeast (initState seedFive) chimeraArgs
        = ({ BeastList := seedFive ++ [chimera], currentMaxId := 6 }, chimera, none)
      ∧ goAdd (initState seedFive).currentMaxId 1 = (initState seedFive).currentMaxId + 1 :=
  ⟨by decide,
   (addBeast_postcondition (initState seedFive) chimeraArgs).2 (by decide) (by decide)⟩

/-! ## updateBeast -/

theorem assignDescription_ok (args : Args) (b : Beast)
    (h : absentOrString (args.lookup "description") = true) :
    assignDescription args b = Except.ok
      { b with Description := (match args.lookup "description" with
                               | some (Value.str v) => v
                               | _ => b.Description) } := by
  unfold assignDescription
  cases hd : args.lookup "description" with
  | none => rfl
  | some v => cases v <;> simp_all [absentOrString]

theorem assignName_ok (args : Args) (b : Beast)
    (h : absentOrString (args.lookup "name") = true) :
    assignName args b = Except.ok
      { b with Name := (match args.lookup "name" with
                        | some (Value.str v) => v
                        | _ => b.Name) } := by
  unfold assignName
  cases hd : args.lookup "name" with
  | none => rfl
  | some v => cases v <;> simp_all [absentOrString]

theorem assignImageUrl_ok (args : Args) (b : Beast)
    (h : absentOrString (args.lookup "imageUrl") = true) :
    assignImageUrl args b = Except.ok
      { b with ImageURL := (match args.lookup "imageUrl" with
                            | some (Value.str v) => v
                            | _ => b.ImageURL) } := by
  unfold assignImageUrl
  cases hd : args.lookup "imageUrl" with
  | none => rfl
  | some v => cases v <;> simp_all [absentOrString]

theorem assignOtherNames_ok (args : Args) (b : Beast)
    (h : absentOrStrings (args.lookup "otherNames") = true) :
    assignOtherNames args b = Except.ok
      { b with OtherNames := (match args.lookup "otherNames" with
                              | some (Value.strs v) => v
                              | _ => b.OtherNames) } := by
  unfold assignOtherNames
  cases hd : args.lookup "otherNames" with
  | none => rfl
  | some v => cases v <;> simp_all [absentOrStrings]

/-- On a well-typed argument map the four assignments all complete, and
their combined effect is the sparse update. -/
theorem updateFields_wellTyped (args : Args) (b : Beast) (h : wellTyped args = true) :
    updateFields args b = Except.ok (sparseUpdate args b) := by
  unfold wellTyped at h
  simp only [Bool.and_eq_true] at h
  obtain ⟨⟨⟨hd, hn⟩, hi⟩, ho⟩ := h
  unfold updateFields
  rw [assignDescription_ok args b hd]
  simp only [bind, Except.bind]
  rw [assignName_ok args _ hn]
  simp only []
  rw [assignImageUrl_ok args _ hi]
  simp only []
  rw [assignOtherNames_ok args _ ho]
  rfl

/-- The loop leaves a store without a matching ID untouched. -/
theorem updateLoop_miss (args : Args) (id : Int) (l : List Beast)
    (h : ∀ b ∈ l, b.ID ≠ id) : updateLoop args id l = (l, none) := by
  induction l with
  | nil => rfl
  | cons b rest ih =>
    have hb : b.ID ≠ id := h b (List.mem_cons_self b rest)
    have hrest : ∀ c ∈ rest, c.ID ≠ id := fun c hc => h c (List.mem_cons_of_mem b hc)
    simp [updateLoop, hb, ih hrest]

/-- The loop stops at the first element with a matching ID and rewrites
only that element. -/
theorem updateLoop_append (args : Args) (id : Int) (pre : List Beast) (old : Beast)
    (post : List Beast) (hpre : ∀ b ∈ pre, b.ID ≠ id) (hold : old.ID = id) :
    updateLoop args id (pre ++ old :: post) =
      (match updateFields args old with
       | Except.ok r => (pre ++ r :: post, some (Except.ok r))
       | Except.error r => (pre ++ r :: post, some (Except.error ()))) := by
  induction pre with
  | nil =>
    simp only [List.nil_append, updateLoop, hold, if_true]
  | cons b rest ih =>
    have hb : b.ID ≠ id := hpre b (List.mem_cons_self b rest)
    have hrest : ∀ c ∈ rest, c.ID ≠ id := fun c hc => hpre c (List.mem_cons_of_mem b hc)
    show updateLoop args id (b :: (rest ++ old :: post)) = _
    rw [updateLoop, if_neg hb, ih hrest]
    cases updateFields args old <;> rfl

/-- A store holding a matching ID splits at its first match. -/
theorem exists_first_match (id : Int) (l : List Beast) (h : ∃ b ∈ l, b.ID = id) :
    ∃ pre old post, l = pre ++ old :: post ∧ old.ID = id ∧ ∀ b ∈ pre, b.ID ≠ id := by
  induction l with
  | nil => obtain ⟨b, hb, _⟩ := h; cases hb
  | cons a rest ih =>
    by_cases ha : a.ID = id
    · exact ⟨[], a, rest, rfl, ha, fun b hb => by cases hb⟩
    · have hrest : ∃ b ∈ rest, b.ID = id := by
        obtain ⟨b, hb, hbid⟩ := h
        rcases List.mem_cons.mp hb with rfl | hb2
        · exact absurd hbid ha
        · exact ⟨b, hb2, hbid⟩
      obtain ⟨pre, old, post, hl, hold, hpre⟩ := ih hrest
      refine ⟨a :: pre, old, post, by rw [hl]; rfl, hold, ?_⟩
      intro b hb
      rcases List.mem_cons.mp hb with rfl | hb2
      · exact ha
      · exact hpre b hb2

/-- Positions of a store split at pre: the element at pre.length and the
elements before it. -/
theorem split_positions (pre : List Beast) (old : Beast) (post : List Beast) :
    (pre ++ old :: post)[pre.length]? = some old ∧
      (∀ j b, j < pre.length → (pre ++ old :: post)[j]? = some b → b ∈ pre) ∧
      (∀ r, (pre ++ old :: post).set pre.length r = pre ++ r :: post) := by
  refine ⟨?_, ?_, ?_⟩
  · rw [List.getElem?_append_right (Nat.le_refl _)]
    simp
  · intro j b hj hb
    rw [List.getElem?_append_left hj] at hb
    exact List.mem_iff_getElem?.mpr ⟨j, hb⟩
  · intro r
    simp

/-- C2: on a well-typed argument map whose id is the ID of some stored
record, updateBeast rewrites the first such record (position i, no earlier
position has that ID) so that each of Name, Description, ImageURL, OtherNames
is the supplied value when its key is present and its previous value when the
key is absent, the ID staying as it was; it returns that stored record, as it
stands after the update, with a nil error. -/
theorem updateBeast_hit_sparse (s : State) (args : Args)
    (hwt : wellTyped args = true) (hhit : ∃ b ∈ s.BeastList, b.ID = argId args) :
    ∃ (i : Nat) (old r : Beast),
      s.BeastList[i]? = some old ∧ old.ID = argId args ∧
      (∀ j b, j < i → s.BeastList[j]? = some b → b.ID ≠ argId args) ∧
      updateBeast s args =
        ({ BeastList := s.BeastList.set i r, currentMaxId := s.currentMaxId },
         Outcome.returned r none) ∧
      (updateBeast s args).1.BeastList[i]? = some r ∧
      r.ID = old.ID ∧
      (∀ v, args.lookup "name" = some (Value.str v) → r.Name = v) ∧
      (args.lookup "name" = none → r.Name = old.Name) ∧
      (∀ v, args.lookup "description" = some (Value.str v) → r.Description = v) ∧
      (args.lookup "description" = none → r.Description = old.Description) ∧
      (∀ v, args.lookup "imageUrl" = some (Value.str v) → r.ImageURL = v) ∧
      (args.lookup "imageUrl" = none → r.ImageURL = old.ImageURL) ∧
      (∀ v, args.lookup "otherNames" = some (Value.strs v) → r.OtherNames = v) ∧
      (args.lookup "otherNames" = none → r.OtherNames = old.OtherNames) := by
  obtain ⟨pre, old, post, hl, hold, hpre⟩ := exists_first_match (argId args) s.BeastList hhit
  obtain ⟨hat, hbefore, hset⟩ := split_positions pre old post
  have hrun : updateBeast s args =
      ({ BeastList := s.BeastList.set pre.length (sparseUpdate args old),
         currentMaxId := s.currentMaxId },
       Outcome.returned (sparseUpdate args old) none) := by
    unfold updateBeast
    simp only [hl, updateLoop_append args (argId args) pre old post hpre hold,
      updateFields_wellTyped args old hwt, hset]
  refine ⟨pre.length, old, sparseUpdate args old, by rw [hl]; exact hat, hold, ?_, hrun, ?_,
    rfl, ?_, ?_, ?_, ?_, ?_, ?_, ?_, ?_⟩
  · intro j b hj hb
    rw [hl] at hb
    exact hpre b (hbefore j b hj hb)
  · rw [hrun, hl, hset]
    exact (split_positions pre (sparseUpdate args old) post).1
  all_goals
    first
      | (intro v h; simp only [sparseUpdate, h])
      | (intro h; simp only [sparseUpdate, h])

/-- C2 at the scenario of the specification: updateBeast(id: 6, imageUrl:
"http://x/img.png") on the store that holds the five seed records and the
Chimera record. -/
theorem updateBeast_hit_sparse_witness :
    wellTyped imageArgs = true ∧ (∃ b ∈ afterChimera.BeastList, b.ID = argId imageArgs) ∧
    ∃ (i : Nat) (old r : Beast),
      afterChimera.BeastList[i]? = some old ∧ old.ID = argId imageArgs ∧
      (∀ j b, j < i → afterChimera.BeastList[j]? = some b → b.ID ≠ argId imageArgs) ∧
      updateBeast afterChimera imageArgs =
        ({ BeastList := afterChimera.BeastList.set i r,
           currentMaxId := afterChimera.currentMaxId },
         Outcome.returned r none) ∧
      (updateBeast afterChimera imageArgs).1.BeastList[i]? = some r ∧
      r.ID = old.ID ∧
      (∀ v, imageArgs.lookup "name" = some (Value.str v) → r.Name = v) ∧
      (imageArgs.lookup "name" = none → r.Name = old.Name) ∧
      (∀ v, imageArgs.lookup "description" = some (Value.str v) → r.Description = v) ∧
      (imageArgs.lookup "description" = none → r.Description = old.Description) ∧
      (∀ v, imageArgs.lookup "imageUrl" = some (Value.str v) → r.ImageURL = v) ∧
      (imageArgs.lookup "imageUrl" = none → r.ImageURL = old.ImageURL) ∧
      (∀ v, imageArgs.lookup "otherNames" = some (Value.strs v) → r.OtherNames = v) ∧
      (imageArgs.lookup "otherNames" = none → r.OtherNames = old.OtherNames) :=
  ⟨by decide, ⟨chimera, by decide, by decide⟩,
   updateBeast_hit_sparse afterChimera imageArgs (by decide) ⟨chimera, by decide, by decide⟩⟩

/-- The expected answer of the scenario, by evaluation. -/
theorem updateBeast_scenario :
    updateBeast afterChimera imageArgs =
      ({ BeastList := seedFive ++ [chimeraWithImage], currentMaxId := 6 },
       Outcome.returned chimeraWithImage none) := by
  decide

/-- No assignment step touches the ID, whether it completes or panics. -/
theorem updateFields_id (args : Args) (b : Beast) :
    ∀ r, (updateFields args b = Except.ok r ∨ updateFields args b = Except.error r) →
      r.ID = b.ID := by
  have h1 : ∀ (c r : Beast), (assignDescription args c = Except.ok r ∨
      assignDescription args c = Except.error r) → r.ID = c.ID := by
    intro c r h
    unfold assignDescription at h
    split at h <;> rcases h with h | h <;> cases h <;> rfl
  have h2 : ∀ (c r : Beast), (assignName args c = Except.ok r ∨
      assignName args c = Except.error r) → r.ID = c.ID := by
    intro c r h
    unfold assignName at h
    split at h <;> rcases h with h | h <;> cases h <;> rfl
  have h3 : ∀ (c r : Beast), (assignImageUrl args c = Except.ok r ∨
      assignImageUrl args c = Except.error r) → r.ID = c.ID := by
    intro c r h
    unfold assignImageUrl at h
    split at h <;> rcases h with h | h <;> cases h <;> rfl
  have h4 : ∀ (c r : Beast), (assignOtherNames args c = Except.ok r ∨
      assignOtherNames args c = Except.error r) → r.ID = c.ID := by
    intro c r h
    unfold assignOtherNames at h
    split at h <;> rcases h with h | h <;> cases h <;> rfl
  intro r h
  unfold updateFields at h
  cases e1 : assignDescription args b with
  | error c1 =>
    have := h1 b c1 (Or.inr e1)
    rw [e1] at h
    rcases h with h | h <;> cases h
    exact this
  | ok c1 =>
    have k1 := h1 b c1 (Or.inl e1)
    rw [e1] at h
    cases e2 : assignName args c1 with
    | error c2 =>
      have k2 := h2 c1 c2 (Or.inr e2)
      simp only [bind, Except.bind, e2] at h
      rcases h with h | h <;> cases h
      rw [k2, k1]
    | ok c2 =>
      have k2 := h2 c1 c2 (Or.inl e2)
      cases e3 : assignImageUrl args c2 with
      | error c3 =>
        have k3 := h3 c2 c3 (Or.inr e3)
        simp only [bind, Except.bind, e2, e3] at h
        rcases h with h | h <;> cases h
        rw [k3, k2, k1]
      | ok c3 =>
        have k3 := h3 c2 c3 (Or.inl e3)
        simp only [bind, Except.bind, e2, e3] at h
        have k4 := h4 c3 r h
        rw [k4, k3, k2, k1]

/-- The loop keeps the sequence of IDs, whether it completes or panics. -/
theorem updateLoop_ids (args : Args) (id : Int) (l : List Beast) :
    (updateLoop args id l).1.map Beast.ID = l.map Beast.ID := by
  induction l with
  | nil => rfl
  | cons b rest ih =>
    by_cases hb : b.ID = id
    · rw [updateLoop, if_pos hb]
      cases e : updateFields args b with
      | ok r => simp [updateFields_id args b r (Or.inl e)]
      | error r => simp [updateFields_id args b r (Or.inr e)]
    · rw [updateLoop, if_neg hb]
      simp [ih]

theorem updateBeast_store (s : State) (args : Args) :
    (updateBeast s args).1 =
      { BeastList := (updateLoop args (argId args) s.BeastList).1,
        currentMaxId := s.currentMaxId } := by
  unfold updateBeast
  simp only []
  split <;> rfl

/-- C8: updateBeast never changes ids.  After the call (also one cut short
by a failed type assertion) the store has the same length, the record at each
position has the ID of the record that was at that position before, and
currentMaxId is unchanged. -/
theorem updateBeast_ids_unchanged (s : State) (args : Args) :
    (updateBeast s args).1.BeastList.length = s.BeastList.length ∧
      (∀ i : Nat, ((updateBeast s args).1.BeastList[i]?).map Beast.ID
          = (s.BeastList[i]?).map Beast.ID) ∧
      (updateBeast s args).1.currentMaxId = s.currentMaxId := by
  have hids := updateLoop_ids args (argId args) s.BeastList
  rw [updateBeast_store]
  refine ⟨?_, ?_, rfl⟩
  · have := congrArg List.length hids
    simpa using this
  · intro i
    have := congrArg (fun l => l[i]?) hids
    simpa using this

/-- C10: when the id names no stored record, updateBeast returns the zero
record (ID 0, empty Name, Description, ImageURL and OtherNames) with a nil
error and leaves the store and the counter exactly as they were, whatever else
the argument map carries. -/
theorem updateBeast_miss (s : State) (args : Args)
    (hmiss : ∀ b ∈ s.BeastList, b.ID ≠ argId args) :
    updateBeast s args =
      (s, Outcome.returned
            { ID := 0, Name := "", Description := "", OtherNames := [], ImageURL := "" }
            none) := by
  unfold updateBeast
  simp only [updateLoop_miss args (argId args) s.BeastList hmiss]
  rfl

/-- C10 at updateBeast(id: 999999, name: null, otherNames: a dynamic list)
on the five seed records. -/
theorem updateBeast_miss_witness :
    (∀ b ∈ (initState seedFive).BeastList, b.ID ≠ argId strayArgs) ∧
    updateBeast (initState seedFive) strayArgs =
      (initState seedFive, Outcome.returned
            { ID := 0, Name := "", Description := "", OtherNames := [], ImageURL := "" }
            none) :=
  ⟨by decide, updateBeast_miss (initState seedFive) strayArgs (by decide)⟩

/-! ## Sequences of calls -/

theorem mem_idsFrom (c : Int) (k : Nat) (x : Int) :
    x ∈ idsFrom c k ↔ c < x ∧ x ≤ c + k := by
  induction k generalizing c with
  | zero => simp only [idsFrom, List.not_mem_nil, false_iff]; omega
  | succ k ih =>
    simp only [idsFrom, List.mem_cons, ih]
    omega

theorem idsFrom_length (c : Int) (k : Nat) : (idsFrom c k).length = k := by
  induction k generalizing c with
  | zero => rfl
  | succ k ih => simp [idsFrom, ih]

theorem idsFrom_pairwise (c : Int) (k : Nat) : (idsFrom c k).Pairwise (fun a b => a < b) := by
  induction k generalizing c with
  | zero => exact List.Pairwise.nil
  | succ k ih =>
    simp only [idsFrom]
    refine List.Pairwise.cons ?_ (ih (c + 1))
    intro x hx
    have := (mem_idsFrom (c + 1) k x).mp hx
    omega

theorem idsFrom_chain (c : Int) (k : Nat) :
    (idsFrom c k).Chain' (fun a b => b = a + 1) := by
  induction k generalizing c with
  | zero => exact List.chain'_nil
  | succ k ih =>
    cases k with
    | zero => simp [idsFrom]
    | succ k =>
      have h := ih (c + 1)
      simp only [idsFrom] at h ⊢
      exact List.Chain'.cons rfl h

/-- Effect of one call on the IDs in the store and on the counter. -/
theorem step_effect (s : State) (op : Op) :
    ((step s op).1.BeastList.map Beast.ID =
        if op.isAdd then s.BeastList.map Beast.ID ++ [goAdd s.currentMaxId 1]
        else s.BeastList.map Beast.ID) ∧
      ((step s op).1.currentMaxId =
        if op.isAdd then goAdd s.currentMaxId 1 else s.currentMaxId) ∧
      (addedId (step s op).2 = if op.isAdd then some (goAdd s.currentMaxId 1) else none) := by
  cases op with
  | beast args => exact ⟨rfl, rfl, rfl⟩
  | beastList => exact ⟨rfl, rfl, rfl⟩
  | addBeast args => simp [step, addBeast, newBeast, Op.isAdd, addedId]
  | updateBeast args =>
    refine ⟨?_, ?_, rfl⟩
    · simp only [step, Op.isAdd, updateBeast_store]
      exact updateLoop_ids args (argId args) s.BeastList
    · simp only [step, Op.isAdd, updateBeast_store]
      rfl

theorem countAdds_cons (op : Op) (ops : List Op) :
    countAdds (op :: ops) = (if op.isAdd then 1 else 0) + countAdds ops := by
  unfold countAdds
  cases h : op.isAdd
  · simp [List.filter, h]
  · simp [List.filter, h]
    omega

/-- Closed form of a run while the counter stays within Go int: the store
IDs are the starting IDs followed by the consecutive integers after the
starting counter, one per addBeast call; those are also the IDs the addBeast
calls returned; and the counter has advanced by the number of addBeast
calls. -/
theorem run_closed_form (ops : List Op) :
    ∀ s : State, minInt ≤ s.currentMaxId → s.currentMaxId + countAdds ops ≤ maxInt →
      (run s ops).BeastList.map Beast.ID
          = s.BeastList.map Beast.ID ++ idsFrom s.currentMaxId (countAdds ops) ∧
        (run s ops).currentMaxId = s.currentMaxId + countAdds ops ∧
        addedIds s ops = idsFrom s.currentMaxId (countAdds ops) := by
  induction ops with
  | nil =>
    intro s _ _
    simp [run, addedIds, responses, countAdds, idsFrom]
  | cons op ops ih =>
    intro s hlo hhi
    obtain ⟨hids, hctr, hadd⟩ := step_effect s op
    rw [countAdds_cons] at hhi ⊢
    cases hop : op.isAdd with
    | false =>
      simp only [hop, if_false, Bool.false_eq_true] at hids hctr hadd hhi ⊢
      have hhi2 : (step s op).1.currentMaxId + countAdds ops ≤ maxInt := by
        rw [hctr]; omega
      obtain ⟨i1, i2, i3⟩ := ih (step s op).1 (by rw [hctr]; exact hlo) hhi2
      refine ⟨?_, ?_, ?_⟩
      · simp only [run, i1, hids, hctr, Nat.zero_add]
      · simp only [run, i2, hctr, Nat.zero_add]
      · unfold addedIds at i3 ⊢
        simp only [responses, List.filterMap_cons, hadd, i3, hctr, Nat.zero_add]
    | true =>
      simp only [hop, if_true] at hids hctr hadd hhi ⊢
      have hone : goAdd s.currentMaxId 1 = s.currentMaxId + 1 :=
        goAdd_one s.currentMaxId hlo (by push_cast at hhi; omega)
      rw [hone] at hids hctr hadd
      have hhi2 : (step s op).1.currentMaxId + countAdds ops ≤ maxInt := by
        rw [hctr]; push_cast at hhi; omega
      obtain ⟨i1, i2, i3⟩ := ih (step s op).1 (by rw [hctr]; omega) hhi2
      refine ⟨?_, ?_, ?_⟩
      · simp only [run, i1, hids, hctr, idsFrom, Nat.add_comm 1, List.append_assoc,
          List.singleton_append]
      · simp only [run, i2, hctr]
        push_cast
        omega
      · unfold addedIds at i3 ⊢
        simp only [responses, List.filterMap_cons, hadd, i3, hctr, idsFrom, Nat.add_comm 1]

/-- The store grows by one on addBeast and keeps its length otherwise. -/
theorem run_length (ops : List Op) :
    ∀ s : State, (run s ops).BeastList.length = s.BeastList.length + countAdds ops := by
  induction ops with
  | nil => intro s; simp [run, countAdds]
  | cons op ops ih =>
    intro s
    have h := congrArg List.length (step_effect s op).1
    rw [List.length_map] at h
    rw [run, ih, countAdds_cons, h]
    cases hop : op.isAdd
    · simp
    · simp
      omega

theorem distinct_positions_of_nodup (l : List Beast) (h : (l.map Beast.ID).Nodup) :
    ∀ (i j : Nat) (bi bj : Beast), i ≠ j → l[i]? = some bi → l[j]? = some bj →
      bi.ID ≠ bj.ID := by
  have key : ∀ (i j : Nat) (bi bj : Beast), i < j → l[i]? = some bi → l[j]? = some bj →
      bi.ID ≠ bj.ID := by
    intro i j bi bj hij hi hj heq
    have hjlt : j < (l.map Beast.ID).length := by
      rw [List.length_map]
      exact (List.getElem?_eq_some.mp hj).1
    have hne := List.nodup_iff_getElem?_ne_getElem?.mp h i j hij hjlt
    apply hne
    rw [List.getElem?_map, List.getElem?_map, hi, hj]
    simp [heq]
  intro i j bi bj hij hi hj
  rcases Nat.lt_or_gt_of_ne hij with hlt | hgt
  · exact key i j bi bj hlt hi hj
  · exact fun heq => key j i bj bi hgt hj hi heq.symm

/-- C3 (amended): when every seed ID is at most 5, the initial counter, and
the counter stays below the largest Go int, the next id to be assigned,
currentMaxId + 1, is strictly greater than the ID of every record in the store
in every state reached from start-up by beast, beastList, addBeast and
updateBeast calls. -/
theorem nextId_above_ids_bounded_seed (seed : List Beast) (ops : List Op)
    (hseed : ∀ b ∈ seed, b.ID ≤ 5) (hno : 5 + (countAdds ops : Int) < maxInt) :
    ∀ b ∈ (run (initState seed) ops).BeastList,
      b.ID < goAdd (run (initState seed) ops).currentMaxId 1 := by
  have hlo : minInt ≤ (initState seed).currentMaxId := by
    show minInt ≤ 5
    unfold minInt
    omega
  have hhi : (initState seed).currentMaxId + countAdds ops ≤ maxInt := by
    show (5 : Int) + countAdds ops ≤ maxInt
    omega
  obtain ⟨hids, hctr, _⟩ := run_closed_form ops (initState seed) hlo hhi
  have hctr5 : (run (initState seed) ops).currentMaxId = 5 + countAdds ops := hctr
  have hnext : goAdd (run (initState seed) ops).currentMaxId 1
      = 5 + countAdds ops + 1 := by
    rw [hctr5]
    apply goAdd_one
    · unfold minInt; omega
    · exact hno
  intro b hb
  rw [hnext]
  have hmem : b.ID ∈ (run (initState seed) ops).BeastList.map Beast.ID :=
    List.mem_map_of_mem Beast.ID hb
  rw [hids] at hmem
  rcases List.mem_append.mp hmem with h1 | h2
  · obtain ⟨c, hc, hcid⟩ := List.mem_map.mp h1
    have := hseed c hc
    omega
  · have := (mem_idsFrom _ _ _).mp h2
    have h5 : (initState seed).currentMaxId = 5 := rfl
    omega

/-- C3 (amended) on the five seed records and a mixed session. -/
theorem nextId_above_ids_bounded_seed_witness :
    (∀ b ∈ seedFive, b.ID ≤ 5) ∧ 5 + (countAdds sessionOps : Int) < maxInt ∧
    ∀ b ∈ (run (initState seedFive) sessionOps).BeastList,
      b.ID < goAdd (run (initState seedFive) sessionOps).currentMaxId 1 :=
  ⟨by decide, by decide,
   nextId_above_ids_bounded_seed seedFive sessionOps (by decide) (by decide)⟩

/-- C3 as stated fails: with a seed record of ID 7 the program still starts
the counter at 5, so the next id, 6, is not above the stored ID 7. -/
theorem nextId_not_above_high_seed :
    ¬ (∀ b ∈ (run (initState seedSeven) []).BeastList,
        b.ID < goAdd (run (initState seedSeven) []).currentMaxId 1) := by
  decide

/-- C4 (amended): when the seed IDs are pairwise distinct and each at most
5, the initial counter, and the counter stays within Go int, any two records at
different positions of the store have different IDs in every state reached
from start-up. -/
theorem ids_distinct_bounded_seed (seed : List Beast) (ops : List Op)
    (hdistinct : (seed.map Beast.ID).Nodup) (hseed : ∀ b ∈ seed, b.ID ≤ 5)
    (hno : 5 + (countAdds ops : Int) ≤ maxInt) :
    ∀ (i j : Nat) (bi bj : Beast), i ≠ j →
      (run (initState seed) ops).BeastList[i]? = some bi →
      (run (initState seed) ops).BeastList[j]? = some bj → bi.ID ≠ bj.ID := by
  have hlo : minInt ≤ (initState seed).currentMaxId := by
    show minInt ≤ 5
    unfold minInt
    omega
  obtain ⟨hids, _, _⟩ := run_closed_form ops (initState seed) hlo hno
  apply distinct_positions_of_nodup
  rw [hids]
  refine List.nodup_append.mpr ⟨hdistinct, (idsFrom_pairwise _ _).imp (fun h => ne_of_lt h), ?_⟩
  intro x hx1 hx2
  obtain ⟨c, hc, hcid⟩ := List.mem_map.mp hx1
  have h1 := hseed c hc
  have h2 := (mem_idsFrom _ _ _).mp hx2
  have h5 : (initState seed).currentMaxId = 5 := rfl
  omega

/-- C4 (amended) on the five seed records and a mixed session. -/
theorem ids_distinct_bounded_seed_witness :
    (seedFive.map Beast.ID).Nodup ∧ (∀ b ∈ seedFive, b.ID ≤ 5) ∧
    5 + (countAdds sessionOps : Int) ≤ maxInt ∧
    ∀ (i j : Nat) (bi bj : Beast), i ≠ j →
      (run (initState seedFive) sessionOps).BeastList[i]? = some bi →
      (run (initState seedFive) sessionOps).BeastList[j]? = some bj → bi.ID ≠ bj.ID :=
  ⟨by decide, by decide, by decide,
   ids_distinct_bounded_seed seedFive sessionOps (by decide) (by decide) (by decide)⟩

/-- C4 as stated fails: the seed of one record with ID 6 has pairwise
distinct IDs, yet after one addBeast call positions 0 and 1 both hold ID 6. -/
theorem ids_collide_after_addBeast :
    (seedSix.map Beast.ID).Nodup ∧
    ∃ (i j : Nat) (bi bj : Beast), i ≠ j ∧
      (run (initState seedSix) [Op.addBeast chimeraArgs]).BeastList[i]? = some bi ∧
      (run (initState seedSix) [Op.addBeast chimeraArgs]).BeastList[j]? = some bj ∧
      bi.ID = bj.ID := by
  refine ⟨by decide, 0, 1, _, _, by decide, rfl, rfl, by decide⟩

/-- C6: while the counter stays within Go int, the IDs returned by the
addBeast calls of any sequence of calls, from any starting state, are strictly
increasing in call order, hence pairwise distinct, and each is exactly one more
than the one before, whatever beast, beastList and updateBeast calls come in
between; there is one such ID per addBeast call. -/
theorem addBeast_ids_increasing (s : State) (ops : List Op)
    (hlo : minInt ≤ s.currentMaxId) (hno : s.currentMaxId + countAdds ops ≤ maxInt) :
    (addedIds s ops).Pairwise (fun a b => a < b) ∧ (addedIds s ops).Nodup ∧
      (addedIds s ops).Chain' (fun a b => b = a + 1) ∧
      (addedIds s ops).length = countAdds ops ∧
      (∀ x ∈ addedIds s ops, s.currentMaxId < x) := by
  obtain ⟨_, _, hadd⟩ := run_closed_form ops s hlo hno
  rw [hadd]
  refine ⟨idsFrom_pairwise _ _, (idsFrom_pairwise _ _).imp (fun h => ne_of_lt h),
    idsFrom_chain _ _, idsFrom_length _ _, ?_⟩
  intro x hx
  exact ((mem_idsFrom _ _ _).mp hx).1

/-- C6 on the five seed records and a mixed session: ids 6, 7 and 8. -/
theorem addBeast_ids_increasing_witness :
    minInt ≤ (initState seedFive).currentMaxId ∧
    (initState seedFive).currentMaxId + countAdds sessionOps ≤ maxInt ∧
    addedIds (initState seedFive) sessionOps = [6, 7, 8] ∧
    ((addedIds (initState seedFive) sessionOps).Pairwise (fun a b => a < b) ∧
      (addedIds (initState seedFive) sessionOps).Nodup ∧
      (addedIds (initState seedFive) sessionOps).Chain' (fun a b => b = a + 1) ∧
      (addedIds (initState seedFive) sessionOps).length = countAdds sessionOps ∧
      (∀ x ∈ addedIds (initState seedFive) sessionOps, (initState seedFive).currentMaxId < x)) :=
  ⟨by decide, by decide, by decide,
   addBeast_ids_increasing (initState seedFive) sessionOps (by decide) (by decide)⟩

/-- C9: from start-up with seed S, after any sequence of calls that holds
k addBeast calls, beastList returns (nil error) the whole store, a list of
exactly |S| + k records. -/
theorem beastList_complete (seed : List Beast) (ops : List Op) :
    beastList (run (initState seed) ops) = ((run (initState seed) ops).BeastList, none) ∧
      (beastList (run (initState seed) ops)).1.length = seed.length + countAdds ops := by
  refine ⟨rfl, ?_⟩
  exact run_length ops (initState seed)

/-! ## beast -/

/-- The scan returns nothing when no record carries the name. -/
theorem findByName_none (n : String) (l : List Beast) (h : ∀ b ∈ l, b.Name ≠ n) :
    findByName n l = none := by
  induction l with
  | nil => rfl
  | cons a rest ih =>
    have ha : a.Name ≠ n := h a (List.mem_cons_self a rest)
    rw [findByName, if_neg ha]
    exact ih (fun c hc => h c (List.mem_cons_of_mem a hc))

/-- The scan returns the first record that carries the name. -/
theorem findByName_append (n : String) (pre : List Beast) (r : Beast) (post : List Beast)
    (hpre : ∀ b ∈ pre, b.Name ≠ n) (hr : r.Name = n) :
    findByName n (pre ++ r :: post) = some r := by
  induction pre with
  | nil => simp only [List.nil_append, findByName, hr, if_true]
  | cons a rest ih =>
    have ha : a.Name ≠ n := hpre a (List.mem_cons_self a rest)
    show findByName n (a :: (rest ++ r :: post)) = some r
    rw [findByName, if_neg ha]
    exact ih (fun c hc => hpre c (List.mem_cons_of_mem a hc))

/-- A store holding the name splits at the first record that carries it. -/
theorem exists_first_named (n : String) (l : List Beast) (h : ∃ b ∈ l, b.Name = n) :
    ∃ pre r post, l = pre ++ r :: post ∧ r.Name = n ∧ ∀ b ∈ pre, b.Name ≠ n := by
  induction l with
  | nil => obtain ⟨b, hb, _⟩ := h; cases hb
  | cons a rest ih =>
    by_cases ha : a.Name = n
    · exact ⟨[], a, rest, rfl, ha, fun b hb => by cases hb⟩
    · have hrest : ∃ b ∈ rest, b.Name = n := by
        obtain ⟨b, hb, hbn⟩ := h
        rcases List.mem_cons.mp hb with rfl | hb2
        · exact absurd hbn ha
        · exact ⟨b, hb2, hbn⟩
      obtain ⟨pre, r, post, hl, hr, hpre⟩ := ih hrest
      refine ⟨a :: pre, r, post, by rw [hl]; rfl, hr, ?_⟩
      intro b hb
      rcases List.mem_cons.mp hb with rfl | hb2
      · exact ha
      · exact hpre b hb2

/-- What beast returns once the name argument is a string. -/
theorem beast_of_string (s : State) (args : Args) (n : String)
    (hq : args.lookup "name" = some (Value.str n)) :
    beast s args = (match findByName n s.BeastList with
                    | some b => (b, none)
                    | none => (Beast.zero, none)) := by
  unfold beast
  simp only [hq, asString, if_true]

/-- On a hit the resolver hands back the first record carrying the name. -/
theorem beast_first_named (s : State) (args : Args) (n : String)
    (hq : args.lookup "name" = some (Value.str n))
    (hhit : ∃ b ∈ s.BeastList, b.Name = n) :
    ∃ (i : Nat) (r : Beast),
      s.BeastList[i]? = some r ∧ r.Name = n ∧
      (∀ j b, j < i → s.BeastList[j]? = some b → b.Name ≠ n) ∧
      beast s args = (r, none) ∧ r ∈ s.BeastList := by
  obtain ⟨pre, r, post, hl, hr, hpre⟩ := exists_first_named n s.BeastList hhit
  obtain ⟨hat, hbefore, _⟩ := split_positions pre r post
  refine ⟨pre.length, r, by rw [hl]; exact hat, hr, ?_, ?_, ?_⟩
  · intro j b hj hb
    rw [hl] at hb
    exact hpre b (hbefore j b hj hb)
  · rw [beast_of_string s args n hq, hl, findByName_append n pre r post hpre hr]
  · rw [hl]
    simp

/-- C7: when some stored record has Name exactly n, beast(name = n)
returns, with a nil error, the record at the smallest store position whose
Name equals n: the result is an element of the store, its Name is n, and no
record before it in store order has Name n. -/
theorem beast_hit_first (s : State) (args : Args) (n : String)
    (hq : args.lookup "name" = some (Value.str n))
    (hhit : ∃ b ∈ s.BeastList, b.Name = n) :
    ∃ (i : Nat) (r : Beast),
      s.BeastList[i]? = some r ∧ r.Name = n ∧
      (∀ j b, j < i → s.BeastList[j]? = some b → b.Name ≠ n) ∧
      beast s args = (r, none) ∧ r ∈ s.BeastList :=
  beast_first_named s args n hq hhit

/-- C7 on a store with a lower-case namesake at position 0 and two records
named "Chimera" at positions 1 and 2: the one at position 1 is returned. -/
theorem beast_hit_first_witness :
    chimeraQuery.lookup "name" = some (Value.str "Chimera") ∧
    (∃ b ∈ twinState.BeastList, b.Name = "Chimera") ∧
    (beast twinState chimeraQuery).1.ID = 2 ∧
    ∃ (i : Nat) (r : Beast),
      twinState.BeastList[i]? = some r ∧ r.Name = "Chimera" ∧
      (∀ j b, j < i → twinState.BeastList[j]? = some b → b.Name ≠ "Chimera") ∧
      beast twinState chimeraQuery = (r, none) ∧ r ∈ twinState.BeastList :=
  ⟨rfl, ⟨_, List.mem_cons_of_mem _ (List.mem_cons_self _ _), rfl⟩, by decide,
   beast_hit_first twinState chimeraQuery "Chimera" rfl
     ⟨_, List.mem_cons_of_mem _ (List.mem_cons_self _ _), rfl⟩⟩

/-- C5 (amended): after addBeast(name = X, description = Y), beast(name = X)
returns, with a nil error, a stored record whose Name is X.  When no record
named X was in the store before the addBeast call, that record is the one
addBeast created: its Description is Y and its ID is currentMaxId + 1 (Go
addition), which is not 0 unless the counter was -1. -/
theorem beast_after_addBeast (s : State) (args qargs : Args) (X Y : String)
    (hname : args.lookup "name" = some (Value.str X))
    (hdesc : args.lookup "description" = some (Value.str Y))
    (hq : qargs.lookup "name" = some (Value.str X)) :
    (beast (addBeast s args).1 qargs).2 = none ∧
      (beast (addBeast s args).1 qargs).1.Name = X ∧
      (beast (addBeast s args).1 qargs).1 ∈ (addBeast s args).1.BeastList ∧
      ((∀ b ∈ s.BeastList, b.Name ≠ X) →
        (beast (addBeast s args).1 qargs).1 = (addBeast s args).2.1 ∧
        (beast (addBeast s args).1 qargs).1.Description = Y ∧
        (beast (addBeast s args).1 qargs).1.ID = goAdd s.currentMaxId 1 ∧
        (minInt ≤ s.currentMaxId → s.currentMaxId ≤ maxInt → s.currentMaxId ≠ -1 →
          (beast (addBeast s args).1 qargs).1.ID ≠ 0)) := by
  have hnew : (newBeast s args).Name = X := by simp [newBeast, hname, asString]
  have hnewd : (newBeast s args).Description = Y := by simp [newBeast, hdesc, asString]
  have hstore : (addBeast s args).1.BeastList = s.BeastList ++ [newBeast s args] := rfl
  have hhit : ∃ b ∈ (addBeast s args).1.BeastList, b.Name = X :=
    ⟨newBeast s args, by rw [hstore]; simp, hnew⟩
  obtain ⟨i, r, _, hr, _, hres, hmem⟩ := beast_first_named (addBeast s args).1 qargs X hq hhit
  rw [hres]
  refine ⟨rfl, hr, hmem, ?_⟩
  intro hfresh
  have hfound : beast (addBeast s args).1 qargs = (newBeast s args, none) := by
    rw [beast_of_string _ qargs X hq, hstore,
      findByName_append X s.BeastList (newBeast s args) [] hfresh hnew]
  have hrn : r = newBeast s args := by
    rw [hres] at hfound
    exact (Prod.mk.inj hfound).1
  subst hrn
  refine ⟨rfl, hnewd, rfl, ?_⟩
  intro hlo hhi hne
  show goAdd s.currentMaxId 1 ≠ 0
  unfold goAdd wrapInt
  unfold minInt at hlo
  unfold maxInt at hhi
  omega

/-- C5 (amended) at the scenario: the five seed records, none named
"Chimera", then addBeast and beast for that name. -/
theorem beast_after_addBeast_witness :
    chimeraArgs.lookup "name" = some (Value.str "Chimera") ∧
    chimeraArgs.lookup "description" = some (Value.str "Lion-goat-serpent") ∧
    chimeraQuery.lookup "name" = some (Value.str "Chimera") ∧
    (∀ b ∈ (initState seedFive).BeastList, b.Name ≠ "Chimera") ∧
    (beast (addBeast (initState seedFive) chimeraArgs).1 chimeraQuery).1 = chimera ∧
    (beast (addBeast (initState seedFive) chimeraArgs).1 chimeraQuery).1
        = (addBeast (initState seedFive) chimeraArgs).2.1 ∧
    (beast (addBeast (initState seedFive) chimeraArgs).1 chimeraQuery).1.ID ≠ 0 :=
  ⟨rfl, rfl, rfl, by decide, by decide,
   ((beast_after_addBeast (initState seedFive) chimeraArgs chimeraQuery "Chimera"
      "Lion-goat-serpent" rfl rfl rfl).2.2.2 (by decide)).1,
   ((beast_after_addBeast (initState seedFive) chimeraArgs chimeraQuery "Chimera"
      "Lion-goat-serpent" rfl rfl rfl).2.2.2 (by decide)).2.2.2
      (by decide) (by decide) (by decide)⟩

/-- C5 as stated fails: when the store already holds a record named
"Chimera" with another description, beast(name: "Chimera") after
addBeast(name: "Chimera", description: "Lion-goat-serpent") returns that older
record, whose Description is not the one just supplied. -/
theorem beast_after_addBeast_returns_older :
    ¬ ((beast (addBeast staleState chimeraArgs).1 chimeraQuery).1.Name = "Chimera" ∧
       (beast (addBeast staleState chimeraArgs).1 chimeraQuery).1.Description
          = "Lion-goat-serpent" ∧
       (beast (addBeast staleState chimeraArgs).1 chimeraQuery).1.ID ≠ 0) := by
  decide

/-- C11: beast never returns an error, and it returns the zero record (ID
0, empty Name, Description, ImageURL and OtherNames) with a nil error whenever
the name argument is absent or not a string, and whenever it is a string that
is the Name of no stored record. -/
theorem beast_miss (s : State) (args : Args) :
    (beast s args).2 = none ∧
      ((∀ n, args.lookup "name" ≠ some (Value.str n)) →
        beast s args =
          ({ ID := 0, Name := "", Description := "", OtherNames := [], ImageURL := "" }, none)) ∧
      (∀ n, args.lookup "name" = some (Value.str n) → (∀ b ∈ s.BeastList, b.Name ≠ n) →
        beast s args =
          ({ ID := 0, Name := "", Description := "", OtherNames := [], ImageURL := "" },
           none)) := by
  refine ⟨?_, ?_, ?_⟩
  · unfold beast
    simp only []
    split
    · split <;> rfl
    · rfl
  · intro h
    have hok : (asString (args.lookup "name")).2 = false := by
      unfold asString
      split
      · rename_i v hv
        exact absurd hv (h v)
      · rfl
    unfold beast
    simp only [hok]
    rfl
  · intro n hq hmiss
    rw [beast_of_string s args n hq, findByName_none n s.BeastList hmiss]
    rfl

/-- C11 on the five seed records: an unknown name, a missing name argument
and a name that is not a string. -/
theorem beast_miss_witness :
    (∀ b ∈ (initState seedFive).BeastList, b.Name ≠ "does-not-exist") ∧
    beast (initState seedFive) unknownQuery =
      ({ ID := 0, Name := "", Description := "", OtherNames := [], ImageURL := "" }, none) ∧
    beast (initState seedFive) [] =
      ({ ID := 0, Name := "", Description := "", OtherNames := [], ImageURL := "" }, none) ∧
    beast (initState seedFive) numericNameQuery =
      ({ ID := 0, Name := "", Description := "", OtherNames := [], ImageURL := "" }, none) :=
  ⟨by decide,
   (beast_miss (initState seedFive) unknownQuery).2.2 "does-not-exist" rfl (by decide),
   (beast_miss (initState seedFive) []).2.1 (fun n h => by cases h),
   (beast_miss (initState seedFive) numericNameQuery).2.1 (fun n h => by cases h)⟩

/-- C12 fails on the code: on a hit, updateBeast asserts the type of each
supplied field without a check.  With otherNames held as a list of interface
values the call panics instead of returning; with description a string and
name null the call panics after Description has already been rewritten in the
store.  addBeast, given the same kinds of value, takes the zero value and
returns with a nil error. -/
theorem updateBeast_panics_on_dynamic_value :
    updateBeast (initState seedFive) listNamesArgs
        = (initState seedFive, Outcome.panicked) ∧
      (updateBeast (initState seedFive) nullNameArgs).2 = Outcome.panicked ∧
      (updateBeast (initState seedFive) nullNameArgs).1.BeastList[0]? =
        some { ID := 1, Name := "Abada", Description := "rewritten",
               OtherNames := ["Nillekma"], ImageURL := "u1" } ∧
      (addBeast (initState seedFive) looseAddArgs).2 =
        ({ ID := 6, Name := "", Description := "", OtherNames := [], ImageURL := "" },
         none) := by
  decide

/-- Without a string for name, beast hands back the zero record. -/
theorem beast_not_string (s : State) (args : Args)
    (h : ∀ n, args.lookup "name" ≠ some (Value.str n)) :
    beast s args = (Beast.zero, none) := by
  have hok : (asString (args.lookup "name")).2 = false := by
    unfold asString
    split
    · rename_i v hv
      exact absurd hv (h v)
    · rfl
  unfold beast
  simp only [hok]
  rfl

/-- C13: the result of a lookup does not tell a hit from a miss.  The store
holding only the zero record has a record named "" and one with ID 0, the
empty store has neither, yet beast(name: "") returns the same pair on both and
updateBeast(id: 0) returns the same outcome on both.  Conversely, when beast
or updateBeast returns a record other than the zero record, the store holds a
record matching the lookup. -/
theorem lookup_result_ambiguous :
    ((∃ b ∈ zeroState.BeastList, b.Name = "") ∧ (∀ b ∈ emptyState.BeastList, b.Name ≠ "") ∧
        emptyNameQuery.lookup "name" = some (Value.str "") ∧
        beast zeroState emptyNameQuery = beast emptyState emptyNameQuery) ∧
      ((∃ b ∈ zeroState.BeastList, b.ID = argId zeroIdArgs) ∧
        (∀ b ∈ emptyState.BeastList, b.ID ≠ argId zeroIdArgs) ∧
        (updateBeast zeroState zeroIdArgs).2 = (updateBeast emptyState zeroIdArgs).2) ∧
      (∀ (s : State) (args : Args), (beast s args).1 ≠ Beast.zero →
        ∃ n, args.lookup "name" = some (Value.str n) ∧ ∃ b ∈ s.BeastList, b.Name = n) ∧
      (∀ (s : State) (args : Args) (r : Beast) (e : GoError),
        (updateBeast s args).2 = Outcome.returned r e → r ≠ Beast.zero →
        ∃ b ∈ s.BeastList, b.ID = argId args) := by
  refine ⟨⟨⟨Beast.zero, by decide, rfl⟩, by decide, rfl, by decide⟩,
    ⟨⟨Beast.zero, by decide, rfl⟩, by decide, by decide⟩, ?_, ?_⟩
  · intro s args hne
    by_cases hstr : ∃ n, args.lookup "name" = some (Value.str n)
    · obtain ⟨n, hn⟩ := hstr
      refine ⟨n, hn, ?_⟩
      by_contra hnone
      have hmiss : ∀ b ∈ s.BeastList, b.Name ≠ n := fun b hb hbn => hnone ⟨b, hb, hbn⟩
      apply hne
      rw [beast_of_string s args n hn, findByName_none n s.BeastList hmiss]
    · have hno : ∀ n, args.lookup "name" ≠ some (Value.str n) := fun n hn => hstr ⟨n, hn⟩
      exact absurd (by rw [beast_not_string s args hno]) hne
  · intro s args r e hret hne
    by_contra hnone
    have hmiss : ∀ b ∈ s.BeastList, b.ID ≠ argId args := fun b hb hbn => hnone ⟨b, hb, hbn⟩
    have hz : (updateBeast s args).2 = Outcome.returned Beast.zero none := by
      unfold updateBeast
      simp only [updateLoop_miss args (argId args) s.BeastList hmiss]
    rw [hz] at hret
    cases hret
    exact hne rfl

/-- C13, converse part, on a hit that returns a record other than the zero
record: beast(name: "Chimera") on the store with two such records, and the
updateBeast call of the scenario. -/
theorem lookup_result_ambiguous_witness :
    (beast twinState chimeraQuery).1 ≠ Beast.zero ∧
    (∃ n, chimeraQuery.lookup "name" = some (Value.str n) ∧
      ∃ b ∈ twinState.BeastList, b.Name = n) ∧
    (updateBeast afterChimera imageArgs).2 = Outcome.returned chimeraWithImage none ∧
    chimeraWithImage ≠ Beast.zero ∧
    (∃ b ∈ afterChimera.BeastList, b.ID = argId imageArgs) :=
  ⟨by decide,
   lookup_result_ambiguous.2.2.1 twinState chimeraQuery (by decide),
   by decide, by decide,
   lookup_result_ambiguous.2.2.2 afterChimera imageArgs chimeraWithImage none (by decide)
     (by decide)⟩

/-- The loop rewrites the element at the first match and nothing else,
whether it completes or panics. -/
theorem updateLoop_append_store (args : Args) (id : Int) (pre : List Beast) (old : Beast)
    (post : List Beast) (hpre : ∀ b ∈ pre, b.ID ≠ id) (hold : old.ID = id) :
    ∃ r, (updateLoop args id (pre ++ old :: post)).1 = pre ++ r :: post := by
  rw [updateLoop_append args id pre old post hpre hold]
  cases updateFields args old with
  | ok r => exact ⟨r, rfl⟩
  | error r => exact ⟨r, rfl⟩

/-- C14: updateBeast leaves every stored record other than the first one
whose ID equals the id argument exactly as it was, at the same position.  A
position j is such a record when the record at j has another ID, or when some
earlier position already holds a record with that ID; the second case is a
later record carrying the same ID, which the loop never reaches.  (No
assumption on the types of the arguments is needed.) -/
theorem updateBeast_frame (s : State) (args : Args) (j : Nat)
    (hj : (∃ k c, k < j ∧ s.BeastList[k]? = some c ∧ c.ID = argId args) ∨
          (∀ b, s.BeastList[j]? = some b → b.ID ≠ argId args)) :
    (updateBeast s args).1.BeastList[j]? = s.BeastList[j]? := by
  rw [updateBeast_store]
  simp only []
  by_cases hhit : ∃ b ∈ s.BeastList, b.ID = argId args
  · obtain ⟨pre, old, post, hl, hold, hpre⟩ := exists_first_match (argId args) s.BeastList hhit
    obtain ⟨hat, hbefore, hset⟩ := split_positions pre old post
    obtain ⟨r, hr⟩ := updateLoop_append_store args (argId args) pre old post hpre hold
    have hne : pre.length ≠ j := by
      intro heq
      subst heq
      rcases hj with ⟨k, c, hk, hc, hcid⟩ | hnot
      · rw [hl] at hc
        exact hpre c (hbefore k c hk hc) hcid
      · rw [hl] at hnot
        exact hnot old hat hold
    rw [hl, hr, ← hset r, List.getElem?_set_ne hne]
  · have hmiss : ∀ b ∈ s.BeastList, b.ID ≠ argId args := fun b hb hbn => hhit ⟨b, hb, hbn⟩
    rw [updateLoop_miss args (argId args) s.BeastList hmiss]

/-- C14 on a store where positions 1 and 2 both carry ID 2: renaming id 2
leaves the record at position 2 (and the one at position 0) untouched. -/
theorem updateBeast_frame_witness :
    (∃ k c, k < 2 ∧ sharedIdState.BeastList[k]? = some c ∧ c.ID = argId renameArgs) ∧
    (updateBeast sharedIdState renameArgs).1.BeastList[2]? = sharedIdState.BeastList[2]? ∧
    (∀ b, sharedIdState.BeastList[0]? = some b → b.ID ≠ argId renameArgs) ∧
    (updateBeast sharedIdState renameArgs).1.BeastList[0]? = sharedIdState.BeastList[0]? :=
  ⟨⟨1, _, by decide, rfl, by decide⟩,
   updateBeast_frame sharedIdState renameArgs 2 (Or.inl ⟨1, _, by decide, rfl, by decide⟩),
   fun b hb => by cases hb; decide,
   updateBeast_frame sharedIdState renameArgs 0 (Or.inr (fun b hb => by cases hb; decide))⟩

/-- C15: when the seed IDs are pairwise distinct and each at most 5, the
initial counter, then in every state reached from start-up by beast,
beastList, addBeast and updateBeast calls, as long as the counter stays within
Go int, every stored ID is at most currentMaxId and the stored IDs are pairwise
distinct; hence the id a further addBeast call assigns (while the counter is
below the largest Go int) differs from the ID of every stored record. -/
theorem id_invariant_bounded_seed (seed : List Beast) (ops : List Op)
    (hdistinct : (seed.map Beast.ID).Nodup) (hseed : ∀ b ∈ seed, b.ID ≤ 5)
    (hno : 5 + (countAdds ops : Int) ≤ maxInt) :
    (∀ b ∈ (run (initState seed) ops).BeastList,
        b.ID ≤ (run (initState seed) ops).currentMaxId) ∧
      (∀ (i j : Nat) (bi bj : Beast), i ≠ j →
        (run (initState seed) ops).BeastList[i]? = some bi →
        (run (initState seed) ops).BeastList[j]? = some bj → bi.ID ≠ bj.ID) ∧
      ((run (initState seed) ops).currentMaxId < maxInt →
        ∀ (args : Args), ∀ b ∈ (run (initState seed) ops).BeastList,
          b.ID ≠ (addBeast (run (initState seed) ops) args).2.1.ID) := by
  have hlo : minInt ≤ (initState seed).currentMaxId := by
    show minInt ≤ 5
    unfold minInt
    omega
  have h5 : (initState seed).currentMaxId = 5 := rfl
  obtain ⟨hids, hctr, _⟩ := run_closed_form ops (initState seed) hlo hno
  have hbound : ∀ b ∈ (run (initState seed) ops).BeastList,
      b.ID ≤ (run (initState seed) ops).currentMaxId := by
    intro b hb
    have hmem : b.ID ∈ (run (initState seed) ops).BeastList.map Beast.ID :=
      List.mem_map_of_mem Beast.ID hb
    rw [hids] at hmem
    rw [hctr]
    rcases List.mem_append.mp hmem with h1 | h2
    · obtain ⟨c, hc, hcid⟩ := List.mem_map.mp h1
      have := hseed c hc
      omega
    · have := (mem_idsFrom _ _ _).mp h2
      omega
  refine ⟨hbound, ?_, ?_⟩
  · apply distinct_positions_of_nodup
    rw [hids]
    refine List.nodup_append.mpr
      ⟨hdistinct, (idsFrom_pairwise _ _).imp (fun h => ne_of_lt h), ?_⟩
    intro x hx1 hx2
    obtain ⟨c, hc, hcid⟩ := List.mem_map.mp hx1
    have h1 := hseed c hc
    have h2 := (mem_idsFrom _ _ _).mp hx2
    omega
  · intro hlt args b hb
    have hnew : (addBeast (run (initState seed) ops) args).2.1.ID
        = (run (initState seed) ops).currentMaxId + 1 := by
      show goAdd (run (initState seed) ops).currentMaxId 1 = _
      apply goAdd_one _ _ hlt
      rw [hctr, h5]
      unfold minInt
      omega
    rw [hnew]
    have := hbound b hb
    omega

/-- C15 on the five seed records and a mixed session, followed by one more
addBeast call. -/
theorem id_invariant_bounded_seed_witness :
    (seedFive.map Beast.ID).Nodup ∧ (∀ b ∈ seedFive, b.ID ≤ 5) ∧
    5 + (countAdds sessionOps : Int) ≤ maxInt ∧
    (run (initState seedFive) sessionOps).currentMaxId < maxInt ∧
    (∀ b ∈ (run (initState seedFive) sessionOps).BeastList,
        b.ID ≤ (run (initState seedFive) sessionOps).currentMaxId) ∧
    (∀ b ∈ (run (initState seedFive) sessionOps).BeastList,
        b.ID ≠ (addBeast (run (initState seedFive) sessionOps) chimeraArgs).2.1.ID) :=
  ⟨by decide, by decide, by decide, by decide,
   (id_invariant_bounded_seed seedFive sessionOps (by decide) (by decide) (by decide)).1,
   (id_invariant_bounded_seed seedFive sessionOps (by decide) (by decide) (by decide)).2.2
     (by decide) chimeraArgs⟩

/-- C16: beast(name = X) called right after addBeast(name = X, ...) returns
the first record named X that was in the store before the addBeast call when
there was one, and otherwise exactly the record addBeast returned; either way
the returned record has Name X and is an element of the store. -/
theorem beast_after_addBeast_exact (s : State) (args qargs : Args) (X : String)
    (hname : args.lookup "name" = some (Value.str X))
    (hq : qargs.lookup "name" = some (Value.str X)) :
    ((∃ b ∈ s.BeastList, b.Name = X) →
        ∃ (i : Nat) (r : Beast), s.BeastList[i]? = some r ∧ r.Name = X ∧
          (∀ j b, j < i → s.BeastList[j]? = some b → b.Name ≠ X) ∧
          beast (addBeast s args).1 qargs = (r, none)) ∧
      ((∀ b ∈ s.BeastList, b.Name ≠ X) →
        beast (addBeast s args).1 qargs = ((addBeast s args).2.1, none)) ∧
      (beast (addBeast s args).1 qargs).1.Name = X ∧
      (beast (addBeast s args).1 qargs).1 ∈ (addBeast s args).1.BeastList := by
  have hnew : (newBeast s args).Name = X := by simp [newBeast, hname, asString]
  have hstore : (addBeast s args).1.BeastList = s.BeastList ++ [newBeast s args] := rfl
  have hhit : ∃ b ∈ (addBeast s args).1.BeastList, b.Name = X :=
    ⟨newBeast s args, by rw [hstore]; simp, hnew⟩
  obtain ⟨_, r, _, hr, _, hres, hmem⟩ := beast_first_named (addBeast s args).1 qargs X hq hhit
  refine ⟨?_, ?_, by rw [hres]; exact hr, by rw [hres]; exact hmem⟩
  · intro hold
    obtain ⟨pre, old, post, hl, holdn, hpre⟩ := exists_first_named X s.BeastList hold
    obtain ⟨hat, hbefore, _⟩ := split_positions pre old post
    refine ⟨pre.length, old, by rw [hl]; exact hat, holdn, ?_, ?_⟩
    · intro j b hj hb
      rw [hl] at hb
      exact hpre b (hbefore j b hj hb)
    · rw [beast_of_string _ qargs X hq, hstore, hl, List.append_assoc, List.cons_append,
        findByName_append X pre old (post ++ [newBeast s args]) hpre holdn]
  · intro hfresh
    rw [beast_of_string _ qargs X hq, hstore,
      findByName_append X s.BeastList (newBeast s args) [] hfresh hnew]
    rfl

/-- C16 on a store that already holds a record named "Chimera" (the older
record comes back) and on the five seed records (the new record comes back). -/
theorem beast_after_addBeast_exact_witness :
    (∃ b ∈ staleState.BeastList, b.Name = "Chimera") ∧
    (∃ (i : Nat) (r : Beast), staleState.BeastList[i]? = some r ∧ r.Name = "Chimera" ∧
      (∀ j b, j < i → staleState.BeastList[j]? = some b → b.Name ≠ "Chimera") ∧
      beast (addBeast staleState chimeraArgs).1 chimeraQuery = (r, none)) ∧
    (∀ b ∈ (initState seedFive).BeastList, b.Name ≠ "Chimera") ∧
    beast (addBeast (initState seedFive) chimeraArgs).1 chimeraQuery
      = ((addBeast (initState seedFive) chimeraArgs).2.1, none) :=
  ⟨⟨_, List.mem_cons_self _ _, rfl⟩,
   (beast_after_addBeast_exact staleState chimeraArgs chimeraQuery "Chimera" rfl rfl).1
     ⟨_, List.mem_cons_self _ _, rfl⟩,
   by decide,
   (beast_after_addBeast_exact (initState seedFive) chimeraArgs chimeraQuery "Chimera"
      rfl rfl).2.1 (by decide)⟩

/-- A sparse update applied twice is the sparse update applied once. -/
theorem sparseUpdate_idem (args : Args) (b : Beast) :
    sparseUpdate args (sparseUpdate args b) = sparseUpdate args b := by
  unfold sparseUpdate
  simp only [Beast.mk.injEq, true_and]
  refine ⟨?_, ?_, ?_, ?_⟩
  · cases args.lookup "name" with
    | none => rfl
    | some v => cases v <;> rfl
  · cases args.lookup "description" with
    | none => rfl
    | some v => cases v <;> rfl
  · cases args.lookup "otherNames" with
    | none => rfl
    | some v => cases v <;> rfl
  · cases args.lookup "imageUrl" with
    | none => rfl
    | some v => cases v <;> rfl

/-- On a well-typed argument map and a store split at the first match,
updateBeast replaces that record by its sparse update and returns it. -/
theorem updateBeast_split (s : State) (args : Args) (pre : List Beast) (old : Beast)
    (post : List Beast) (hwt : wellTyped args = true) (hl : s.BeastList = pre ++ old :: post)
    (hpre : ∀ b ∈ pre, b.ID ≠ argId args) (hold : old.ID = argId args) :
    updateBeast s args =
      ({ BeastList := pre ++ sparseUpdate args old :: post, currentMaxId := s.currentMaxId },
       Outcome.returned (sparseUpdate args old) none) := by
  unfold updateBeast
  simp only [hl, updateLoop_append args (argId args) pre old post hpre hold,
    updateFields_wellTyped args old hwt]

/-- C17: on a well-typed argument map, applying updateBeast twice in
succession with the same arguments gives the same state (store and counter)
and the same returned record as applying it once. -/
theorem updateBeast_idempotent (s : State) (args : Args) (hwt : wellTyped args = true) :
    updateBeast (updateBeast s args).1 args = updateBeast s args := by
  by_cases hhit : ∃ b ∈ s.BeastList, b.ID = argId args
  · obtain ⟨pre, old, post, hl, hold, hpre⟩ := exists_first_match (argId args) s.BeastList hhit
    have h1 := updateBeast_split s args pre old post hwt hl hpre hold
    have hid : (sparseUpdate args old).ID = argId args := hold
    have h2 := updateBeast_split (updateBeast s args).1 args pre (sparseUpdate args old) post
      hwt (by rw [h1]) hpre hid
    rw [h2, sparseUpdate_idem, h1]
  · have hmiss : ∀ b ∈ s.BeastList, b.ID ≠ argId args := fun b hb hbn => hhit ⟨b, hb, hbn⟩
    have h1 : updateBeast s args = (s, Outcome.returned Beast.zero none) := by
      unfold updateBeast
      simp only [updateLoop_miss args (argId args) s.BeastList hmiss]
    rw [h1]
    exact h1

/-- C17 at the updateBeast call of the scenario, made twice. -/
theorem updateBeast_idempotent_witness :
    wellTyped imageArgs = true ∧
    updateBeast (updateBeast afterChimera imageArgs).1 imageArgs
      = updateBeast afterChimera imageArgs ∧
    (updateBeast afterChimera imageArgs).2 = Outcome.returned chimeraWithImage none :=
  ⟨by decide, updateBeast_idempotent afterChimera imageArgs (by decide), by decide⟩

end Schema
